import Mathlib

/-!
Shallow embedding of the openraft core engine excerpt:
`engine/engine_impl.rs`, `membership/membership_state.rs`, and the behavior
pinned by `raft_state_test.rs`.  Machine integers are modelled as `Nat`
(indexes, terms, node ids) and `Int` (monotonic instants); `Option` models
Rust `Option`; fallible operations return `Except` or an explicit result
inductive.  Definitions whose Rust source is not part of the excerpt are
modelled from the specification and carry a doc comment saying so.
-/

set_option autoImplicit false

namespace Openraft

/-- Log id: a (term, index) pair, ordered lexicographically by (term, index).
Embeds `LogId` (the `leader_id` node component is not needed by any claim). -/
structure LogId where
  term : Nat
  index : Nat
deriving DecidableEq, Repr

/-- Lexicographic (term, index) less-or-equal on log ids. -/
def LogId.leB (a b : LogId) : Bool :=
  decide (a.term < b.term) || (a.term == b.term && decide (a.index ≤ b.index))

/-- Lexicographic (term, index) strict order on log ids. -/
def LogId.ltB (a b : LogId) : Bool :=
  decide (a.term < b.term) || (a.term == b.term && decide (a.index < b.index))

/-- Ordering on `Option LogId` as in Rust: `None` is the least element. -/
def optLogIdLeB : Option LogId → Option LogId → Bool
  | none, _ => true
  | some _, none => false
  | some a, some b => a.leB b

/-- Strict ordering on `Option LogId`, `None` least. -/
def optLogIdLtB : Option LogId → Option LogId → Bool
  | none, none => false
  | none, some _ => true
  | some _, none => false
  | some a, some b => a.ltB b

/-- Rust `Option<LogId>::index()`. -/
def optIndex : Option LogId → Option Nat
  | none => none
  | some l => some l.index

/-- Rust `Option<LogId>::next_index()`: 0 for `None`, `index + 1` otherwise. -/
def optNextIndex : Option LogId → Nat
  | none => 0
  | some l => l.index + 1

/-- Ordering on `Option Nat` as in Rust: `None` least. -/
def optNatLeB : Option Nat → Option Nat → Bool
  | none, _ => true
  | some _, none => false
  | some a, some b => decide (a ≤ b)

/-- Strict ordering on `Option Nat`, `None` least. -/
def optNatLtB : Option Nat → Option Nat → Bool
  | none, none => false
  | none, some _ => true
  | some _, none => false
  | some a, some b => decide (a < b)

/-- A membership config: a list of joint voter sets plus a node-id → endpoint
map (endpoints modelled as `Nat`).  Learners are the node ids present in
`nodes` but not voters. -/
structure Membership where
  configs : List (List Nat)
  nodes : List (Nat × Nat)
deriving DecidableEq, Repr

/-- A node is a voter iff it is in every joint voter set. -/
def Membership.is_voter (m : Membership) (n : Nat) : Bool :=
  m.configs.all (fun c => c.contains n)

/-- Rust `EffectiveMembership::contains`: the node has an entry in the
node map. -/
def Membership.containsNode (m : Membership) (n : Nat) : Bool :=
  (m.nodes.lookup n).isSome

/-- Modelled from the spec: `Membership::next_safe` is not part of the
excerpt.  It builds the next membership from the new voter ids, entering a
joint config when the voter set changes; the node map is retained (the
`removed_to_learner` flag selects whether removed voters stay as learners,
which does not affect any claim). -/
def Membership.next_safe (m : Membership) (new_voter_ids : List Nat)
    (removed_to_learner : Bool) : Membership :=
  let last := m.configs.getLastD []
  let configs := if last == new_voter_ids then [new_voter_ids] else [last, new_voter_ids]
  { configs := configs, nodes := if removed_to_learner then m.nodes else m.nodes }

/-- An `EffectiveMembership`: the log id of the membership entry plus the
membership itself. -/
structure EffectiveMembership where
  log_id : Option LogId
  membership : Membership
deriving DecidableEq, Repr

/-- The pair of (committed, effective) membership configs. -/
structure MembershipState where
  committed : EffectiveMembership
  effective : EffectiveMembership
deriving DecidableEq, Repr

def MembershipState.is_voter (ms : MembershipState) (n : Nat) : Bool :=
  ms.effective.membership.is_voter n

/-- `MembershipState::commit`: if `committed_log_id >= effective.log_id`,
the effective config becomes the committed one. -/
def MembershipState.commit (ms : MembershipState) (committed_log_id : Option LogId) :
    MembershipState :=
  if optLogIdLeB ms.effective.log_id committed_log_id then
    { ms with committed := ms.effective }
  else ms

/-- `MembershipState::update_committed`: the effective config is replaced when
the new committed config has a greater-or-equal log index; the committed
config is replaced when the new one is greater in (term, index) order.
Returns the updated state and the new effective config when it changed. -/
def MembershipState.update_committed (ms : MembershipState) (c : EffectiveMembership) :
    MembershipState × Option EffectiveMembership :=
  let cond := optNatLeB (optIndex ms.effective.log_id) (optIndex c.log_id)
  let changed := cond && decide (c.membership ≠ ms.effective.membership)
  let ms1 := if cond then { ms with effective := c } else ms
  let ms2 :=
    if optLogIdLtB ms1.committed.log_id c.log_id then { ms1 with committed := c } else ms1
  (ms2, if changed then some ms2.effective else none)

/-- `MembershipState::append`: the previous effective config must have been
committed, so it moves to `committed` and the new one becomes effective.
The source's `debug_assert!` preconditions appear as theorem hypotheses. -/
def MembershipState.append (ms : MembershipState) (m : EffectiveMembership) :
    MembershipState :=
  { committed := ms.effective, effective := m }

/-- `MembershipState::truncate`: when the truncation point is at or below the
effective membership entry, the effective config reverts to the committed
one. -/
def MembershipState.truncate (ms : MembershipState) (since : Nat) :
    MembershipState × Option EffectiveMembership :=
  if optNatLeB (some since) (optIndex ms.effective.log_id) then
    ({ ms with effective := ms.committed }, some ms.committed)
  else (ms, none)

/-- Errors of `MembershipState::next_membership`. -/
inductive ChangeMembershipError where
  | emptyMembership
  | learnerNotFound (node_id : Nat)
  | inProgress (committed : Option LogId) (membership_log_id : Option LogId)
deriving DecidableEq, Repr

/-- `MembershipState::next_membership`.  `ChangeMembers::apply_to` (not in
the excerpt) is abstracted as the function `apply_changes` applied to the
last joint voter set.  The checks run in the source's order: empty voter
set, then missing node entries, then an uncommitted membership change. -/
def MembershipState.next_membership (ms : MembershipState)
    (apply_changes : List Nat → List Nat) (removed_to_learner : Bool) :
    Except ChangeMembershipError Membership :=
  let last := ms.effective.membership.configs.getLastD []
  let new_voter_ids := apply_changes last
  if new_voter_ids.isEmpty then
    Except.error ChangeMembershipError.emptyMembership
  else
    match new_voter_ids.find? (fun n => ! ms.effective.membership.containsNode n) with
    | some n => Except.error (ChangeMembershipError.learnerNotFound n)
    | none =>
      if ms.committed.log_id == ms.effective.log_id then
        Except.ok (ms.effective.membership.next_safe new_voter_ids removed_to_learner)
      else
        Except.error
          (ChangeMembershipError.inProgress ms.committed.log_id ms.effective.log_id)

/-- The `Validate` invariant of `MembershipState`: committed ≤ effective in
(term, index) order and also by index alone. -/
def MembershipState.invB (ms : MembershipState) : Bool :=
  optLogIdLeB ms.committed.log_id ms.effective.log_id &&
    optNatLeB (optIndex ms.committed.log_id) (optIndex ms.effective.log_id)

/-- A vote: (term, node id, committed-by-quorum flag), ordered
lexicographically by (term, committed, node_id) with `false < true`. -/
structure Vote where
  term : Nat
  node_id : Nat
  committed : Bool
deriving DecidableEq, Repr

/-- The zero vote, value of `Vote::default()`. -/
def Vote.zero : Vote := { term := 0, node_id := 0, committed := false }

def boolRank (b : Bool) : Nat := if b then 1 else 0

/-- Strict vote order: lexicographic on (term, committed flag, node id). -/
def Vote.ltB (a b : Vote) : Bool :=
  decide (a.term < b.term) ||
    (a.term == b.term &&
      (decide (boolRank a.committed < boolRank b.committed) ||
        (a.committed == b.committed && decide (a.node_id < b.node_id))))

def Vote.maxB (a b : Vote) : Vote := if Vote.ltB a b then b else a

/-- Server states of a raft node. -/
inductive ServerState where
  | learner
  | follower
  | candidate
  | leader
deriving DecidableEq, Repr

/-- Wait-conditions a command may carry. -/
inductive Cond where
  | flushedLogAt (l : LogId)
  | snapshotInstalled (l : LogId)
  | voteSaved (v : Vote)
deriving DecidableEq, Repr

/-- The commands the engine emits for the runtime (only the payloads the
claims inspect are carried). -/
inductive Command where
  | sendVote (v : Vote) (last : Option LogId)
  | respond (condition : Option Cond) (ok : Bool)
  | saveVote (v : Vote)
  | appendLogs (ids : List LogId)
  | truncateLog (since : Nat)
  | purgeLog (upto : LogId)
  | serverStateUpdate (s : ServerState)
  | rebuildReplicationStreams
deriving DecidableEq, Repr

/-- A log entry: its log id plus an optional membership payload. -/
structure Entry where
  log_id : LogId
  membership : Option Membership
deriving DecidableEq, Repr

/-- The candidate state: requested vote, the last log id at election start,
the joint quorum sets and the granting voters collected so far. -/
structure Candidate where
  vote : Vote
  last_log_id : Option LogId
  quorum : List (List Nat)
  granted : List Nat
deriving DecidableEq, Repr

/-- The leader state: its (possibly not yet committed) vote and per-peer
replication matching. -/
structure Leader where
  vote : Vote
  progress : List (Nat × Option LogId)
deriving DecidableEq, Repr

/-- The replica state.  The log is the list of log ids of all entries ever
appended, position = index (the purged prefix is kept so that `get_log_id`
can still answer at the purge boundary, as `LogIdList` does). -/
structure RaftState where
  vote : Vote
  log : List LogId
  purged_next : Nat
  committed : Option LogId
  purge_upto : Option LogId
  snapshot_last : Option LogId
  membership : MembershipState
  vote_last_modified : Option Int
  server_state : ServerState
deriving DecidableEq, Repr

def RaftState.last_log_id (st : RaftState) : Option LogId := st.log.getLast?

/-- Modelled from the spec: `RaftState::get_log_id` answers the log id at an
index known to the `LogIdList`.  The source of `RaftState` is not in the
excerpt. -/
def RaftState.get_log_id (st : RaftState) (i : Nat) : Option LogId := st.log[i]?

/-- Modelled from the spec and pinned by `raft_state_test.rs`:
`RaftState::has_log_id` is true for any log id at or below `committed`, or
when the log has exactly that id at that index. -/
def RaftState.has_log_id (st : RaftState) (l : LogId) : Bool :=
  optLogIdLeB (some l) st.committed || (st.log[l.index]? == some l)

/-- Modelled from the spec: the greatest purged log id, `None` when nothing
has been purged. -/
def RaftState.last_purged (st : RaftState) : Option LogId :=
  if st.purged_next == 0 then none else st.log[st.purged_next - 1]?

/-- The engine: config (node id, leader lease), the replica state, the
election flags, the optional leader and candidate, and the FIFO command
output. -/
structure Engine where
  id : Nat
  leader_lease : Int
  state : RaftState
  seen_greater_log : Bool
  last_seen_vote : Vote
  leader : Option Leader
  candidate : Option Candidate
  output : List Command
deriving DecidableEq, Repr

/-- Modelled from the spec: `ServerStateHandler` recomputes the server state
from (leader/candidate presence, voter-ness). -/
def Engine.calc_server_state (e : Engine) : ServerState :=
  if e.leader.isSome then ServerState.leader
  else if e.candidate.isSome then ServerState.candidate
  else if e.state.membership.is_voter e.id then ServerState.follower
  else ServerState.learner

/-- Modelled from the spec: `ServerStateHandler::update_server_state_if_changed`
sets the new server state and emits a `ServerStateUpdate` command on change. -/
def Engine.update_server_state_if_changed (e : Engine) : Engine :=
  let s := e.calc_server_state
  if s == e.state.server_state then e
  else
    { e with
      state := { e.state with server_state := s },
      output := e.output ++ [Command.serverStateUpdate s] }

/-- Modelled from the spec: `VoteHandler::update_vote`.  A smaller vote is
rejected; a greater vote overwrites `state.vote`, clears a leader or
candidate whose vote no longer matches, resets `vote_last_modified` to now,
emits `SaveVote` and recomputes the server state; an equal vote is an
idempotent success (whether the lease timestamp is refreshed on the equal
case is left open by the spec; this model does not refresh it). -/
def Engine.update_vote (e : Engine) (now : Int) (v : Vote) : Except Unit Engine :=
  if Vote.ltB v e.state.vote then Except.error ()
  else if Vote.ltB e.state.vote v then
    let leader1 :=
      match e.leader with
      | some l => if l.vote == v then some l else none
      | none => none
    let cand1 :=
      match e.candidate with
      | some c => if c.vote == v then some c else none
      | none => none
    let e1 := { e with
      state := { e.state with vote := v, vote_last_modified := some now },
      leader := leader1, candidate := cand1,
      output := e.output ++ [Command.saveVote v] }
    Except.ok e1.update_server_state_if_changed
  else Except.ok e

/-- The engine after `update_vote`, unchanged when the vote is rejected —
the pattern of the call sites that ignore or unwrap the rejection. -/
def Engine.update_vote_or_self (e : Engine) (now : Int) (v : Vote) : Engine :=
  match e.update_vote now v with
  | Except.ok x => x
  | Except.error _ => e

/-- Modelled from the spec: `VoteHandler::update_last_seen` takes the max. -/
def Engine.update_last_seen (e : Engine) (v : Vote) : Engine :=
  { e with last_seen_vote := Vote.maxB e.last_seen_vote v }

/-- A vote request: (vote, last_log_id). -/
structure VoteRequest where
  vote : Vote
  last_log_id : Option LogId
deriving DecidableEq, Repr

/-- A vote response: (vote, last_log_id). -/
structure VoteResponse where
  vote : Vote
  last_log_id : Option LogId
deriving DecidableEq, Repr

/-- `Engine::handle_vote_req`.  The monotone instant source is passed as the
explicit `now`.  Rules in the source's order: reject while the leader lease
of a committed vote has not expired (a missing `vote_last_modified` defaults
to `now - lease - 1`, which always fails the lease test), reject a candidate
whose log is behind, otherwise run `update_vote`; every path returns the
current (vote, last_log_id). -/
def Engine.handle_vote_req (e : Engine) (now : Int) (req : VoteRequest) :
    Engine × VoteResponse :=
  let lease := e.leader_lease
  let vote_utime := e.state.vote_last_modified.getD (now - lease - 1)
  if e.state.vote.committed && decide (now ≤ vote_utime + lease) then
    (e, { vote := e.state.vote, last_log_id := e.state.last_log_id })
  else if ! optLogIdLeB e.state.last_log_id req.last_log_id then
    (e, { vote := e.state.vote, last_log_id := e.state.last_log_id })
  else
    let e1 := e.update_vote_or_self now req.vote
    (e1, { vote := e1.state.vote, last_log_id := e1.state.last_log_id })

/-- Majority test of one voter set, per the spec's quorum design note. -/
def quorumOf (s : List Nat) (granted : List Nat) : Bool :=
  decide (2 * (s.filter (fun n => granted.contains n)).length > s.length)

/-- `Candidate::grant_by`: record the target as granting. -/
def Candidate.grant_by (c : Candidate) (target : Nat) : Candidate :=
  { c with granted := if c.granted.contains target then c.granted else target :: c.granted }

/-- Granted iff a majority granted in every joint voter set. -/
def Candidate.quorum_granted (c : Candidate) : Bool :=
  c.quorum.all (fun s => quorumOf s c.granted)

/-- `Engine::establish_leader` with `EstablishHandler`, replication-stream
rebuilding and the blank no-op entry modelled from the spec: the candidate is
consumed; if a superseding vote has been seen the establishment is dropped;
otherwise the leader vote is committed via `update_vote` and a blank entry is
appended at the new term. -/
def Engine.establish_leader (e : Engine) (now : Int) : Engine :=
  match e.candidate with
  | none => e
  | some cand =>
    let e1 := { e with candidate := none }
    if Vote.ltB cand.vote e1.state.vote then e1
    else
      let lvote := { cand.vote with committed := true }
      let leader : Leader := { vote := lvote, progress := [] }
      let e2 := { e1 with
        leader := some leader,
        output := e1.output ++ [Command.rebuildReplicationStreams] }
      let e3 := e2.update_vote_or_self now lvote
      let blank : LogId := { term := lvote.term, index := e3.state.log.length }
      { e3 with
        state := { e3.state with log := e3.state.log ++ [blank] },
        output := e3.output ++ [Command.appendLogs [blank]] }

/-- `Engine::handle_vote_resp`: update `last_seen_vote`; ignore when no
candidate exists; an equal vote is a grant (establish the leader on quorum);
a different vote is a rejection, and a greater replied last log id sets the
`seen_greater_log` flag. -/
def Engine.handle_vote_resp (e : Engine) (now : Int) (target : Nat)
    (resp : VoteResponse) : Engine :=
  let e1 := e.update_last_seen resp.vote
  match e1.candidate with
  | none => e1
  | some cand =>
    if resp.vote == cand.vote then
      let cand2 := cand.grant_by target
      let e2 := { e1 with candidate := some cand2 }
      if cand2.quorum_granted then e2.establish_leader now else e2
    else
      if optLogIdLtB e1.state.last_log_id resp.last_log_id then
        { e1 with seen_greater_log := true }
      else e1

/-- The follower-side rejection of an append-entries request. -/
inductive RejectAppendEntries where
  | byVote (v : Vote)
  | byLog (hint : Option LogId)
deriving DecidableEq, Repr

/-- Modelled from the spec: `FollowingHandler::ensure_log_consecutive` — ok
when `prev_log_id` is absent or present in the log, otherwise a ByLog
rejection carrying the follower's conflict hint. -/
def RaftState.ensure_log_consecutive (st : RaftState) (prev : Option LogId) :
    Except RejectAppendEntries Unit :=
  match prev with
  | none => Except.ok ()
  | some p =>
    if st.has_log_id p then Except.ok ()
    else Except.error (RejectAppendEntries.byLog st.last_log_id)

/-- Modelled from the spec: `FollowingHandler::append_entries` /
`do_append_entries` — truncate the follower log at the first entry whose
(index, term) disagrees (reverting the effective membership, see
`MembershipState.truncate`), then append the remaining entries, updating the
membership state from any appended membership entry. -/
def Engine.fh_append_entries (e : Engine) (entries : List Entry) : Engine :=
  let st := e.state
  let conflict := entries.find? (fun en =>
    match st.log[en.log_id.index]? with
    | some l => ! (l == en.log_id)
    | none => false)
  let e1 :=
    match conflict with
    | some en =>
      let since := en.log_id.index
      { e with
        state := { st with
          log := st.log.take since,
          membership := (st.membership.truncate since).1 },
        output := e.output ++ [Command.truncateLog since] }
    | none => e
  let st1 := e1.state
  let newEntries := entries.filter (fun en => Nat.ble st1.log.length en.log_id.index)
  let ids := newEntries.map Entry.log_id
  let ms2 := newEntries.foldl (fun ms en =>
    match en.membership with
    | some m => ms.append { log_id := some en.log_id, membership := m }
    | none => ms) st1.membership
  if ids.isEmpty then e1
  else
    { e1 with
      state := { st1 with log := st1.log ++ ids, membership := ms2 },
      output := e1.output ++ [Command.appendLogs ids] }

/-- `Engine::append_entries`: update the vote (reject by vote on failure),
ensure the log is consecutive at `prev_log_id`, then append.  Returns the
engine after the event together with the rejection, if any (a vote update
persists even when the log check then rejects, as in the source). -/
def Engine.append_entries (e : Engine) (now : Int) (vote : Vote)
    (prev : Option LogId) (entries : List Entry) :
    Engine × Option RejectAppendEntries :=
  match e.update_vote now vote with
  | Except.error _ => (e, some (RejectAppendEntries.byVote e.state.vote))
  | Except.ok e1 =>
    match e1.state.ensure_log_consecutive prev with
    | Except.error r => (e1, some r)
    | Except.ok _ => (e1.fh_append_entries entries, none)

/-- `Engine::handle_append_entries`: run `append_entries`; when a reply
channel is present, push a `Respond` command carrying the result — the
source builds it with `when: None`, i.e. without any wait-condition.
Returns the engine and the is-ok flag the source returns. -/
def Engine.handle_append_entries (e : Engine) (now : Int) (vote : Vote)
    (prev : Option LogId) (entries : List Entry) (has_tx : Bool) :
    Engine × Bool :=
  let r := e.append_entries now vote prev entries
  let is_ok := r.2.isNone
  if has_tx then
    ({ r.1 with output := r.1.output ++ [Command.respond none is_ok] }, is_ok)
  else (r.1, is_ok)

/-- Modelled from the spec and the source comment on `check_initialize`:
`RaftState::is_initialized` (not in the excerpt) — the state is initialized
when the log is non-empty or the vote is not the zero vote. -/
def RaftState.is_inited (st : RaftState) : Bool :=
  ! (st.last_log_id == none && st.vote == Vote.zero)

/-- `Engine::elect`: bump the term from `last_seen_vote`, build a candidate
from the current last log id and the effective membership's quorum sets,
self-grant via `update_vote`, emit `SendVote`, update the server state. -/
def Engine.elect (e : Engine) (now : Int) : Engine :=
  let new_vote : Vote :=
    { term := e.last_seen_vote.term + 1, node_id := e.id, committed := false }
  let cand : Candidate :=
    { vote := new_vote,
      last_log_id := e.state.last_log_id,
      quorum := e.state.membership.effective.membership.configs,
      granted := [] }
  let e1 := { e with candidate := some cand }
  let e2 := e1.update_vote_or_self now new_vote
  let e3 := { e2 with output := e2.output ++ [Command.sendVote new_vote cand.last_log_id] }
  e3.update_server_state_if_changed

/-- Outcome of `Engine::initialize`.  `panicked` models the
`entry.get_membership().expect(..)` panic of the source on a non-membership
entry. -/
inductive InitResult where
  | ok (e : Engine)
  | errNotAllowed (last_log_id : Option LogId) (vote : Vote)
  | errNotInMembers (node_id : Nat)
  | panicked
deriving Repr

/-- `Engine::initialize` (named `init` here): `check_initialize` fails with
NotAllowed on an initialized state; the entry's log id is reset to the
sentinel (0,0); a non-membership entry hits the source's `expect` and the
process aborts (`panicked`); `check_members_contain_me` fails with
NotInMembers when this node is not a voter of the entry's membership;
otherwise the entry is appended and the node starts to elect. -/
def Engine.init (e : Engine) (now : Int) (entry : Entry) : InitResult :=
  if e.state.is_inited then
    InitResult.errNotAllowed e.state.last_log_id e.state.vote
  else
    match entry.membership with
    | none => InitResult.panicked
    | some m =>
      if ! m.is_voter e.id then InitResult.errNotInMembers e.id
      else
        InitResult.ok
          ((e.fh_append_entries
            [{ log_id := { term := 0, index := 0 }, membership := some m }]).elect now)

/-- Modelled from the spec: `LogHandler::update_purge_upto`. -/
def Engine.update_purge_upto (e : Engine) (l : LogId) : Engine :=
  { e with state := { e.state with purge_upto := some l } }

/-- Modelled from the spec: `LogHandler::purge_log` emits a `PurgeLog`
command when `purge_upto` is ahead of the already-purged prefix. -/
def Engine.purge_log (e : Engine) : Engine :=
  match e.state.purge_upto with
  | none => e
  | some upto =>
    if optLogIdLtB e.state.last_purged (some upto) then
      { e with
        state := { e.state with purged_next := upto.index + 1 },
        output := e.output ++ [Command.purgeLog upto] }
    else e

/-- Modelled from the spec: `ReplicationHandler::try_purge_log` purges only
up to the minimum in-flight replication cursor across peers. -/
def Engine.rh_try_purge_log (e : Engine) (l : Leader) : Engine :=
  let minMatching := l.progress.foldl
    (fun acc p => if optLogIdLtB p.2 acc then p.2 else acc) e.state.purge_upto
  let eff := if optLogIdLtB minMatching e.state.purge_upto then minMatching
    else e.state.purge_upto
  match eff with
  | none => e
  | some upto =>
    if optLogIdLtB e.state.last_purged (some upto) then
      { e with
        state := { e.state with purged_next := upto.index + 1 },
        output := e.output ++ [Command.purgeLog upto] }
    else e

/-- `Engine::try_purge_log`: a leader defers to the replication handler,
anyone else purges immediately. -/
def Engine.try_purge_log (e : Engine) : Engine :=
  match e.leader with
  | some l => e.rh_try_purge_log l
  | none => e.purge_log

/-- `Engine::trigger_purge_log`.  The source's control flow: return when no
snapshot exists; return when the requested (un-capped) index is below the
scheduled `purge_upto`'s next index; cap the index at the snapshot's last
index; set `purge_upto` to the log id at the capped index (the source
unwraps here — `none` models that panic) and call `try_purge_log`. -/
def Engine.trigger_purge_log (e : Engine) (index : Nat) : Option Engine :=
  match e.state.snapshot_last with
  | none => some e
  | some snap_last =>
    if index < optNextIndex e.state.purge_upto then some e
    else
      let index2 := if snap_last.index < index then snap_last.index else index
      match e.state.get_log_id index2 with
      | none => none
      | some log_id => some ((e.update_purge_upto log_id).try_purge_log)

/-- The claim's reading of `trigger_purge_log`: the index is capped at the
snapshot's last index FIRST, and the capped index is then compared against
the scheduled `purge_upto`'s next index.  Second definition written from the
spec's words, for comparison with the source's order of the two steps. -/
def Engine.trigger_purge_log_capFirst (e : Engine) (index : Nat) : Option Engine :=
  match e.state.snapshot_last with
  | none => some e
  | some snap_last =>
    let capped := if snap_last.index < index then snap_last.index else index
    if capped < optNextIndex e.state.purge_upto then some e
    else
      match e.state.get_log_id capped with
      | none => none
      | some log_id => some ((e.update_purge_upto log_id).try_purge_log)

/-- The ForwardToLeader error: the believed leader's id and endpoint, both
absent when the leader is unknown. -/
structure ForwardToLeader where
  leader_id : Option Nat
  leader_node : Option Nat
deriving DecidableEq, Repr

def ForwardToLeader.empty : ForwardToLeader := { leader_id := none, leader_node := none }

/-- Modelled from the spec and pinned by `raft_state_test.rs`:
`RaftState::forward_to_leader` — when the local vote is committed, the
believed leader is the vote's node, with its endpoint looked up in the
effective membership; empty when the vote is uncommitted or the node has no
entry there. -/
def RaftState.forward_to_leader (st : RaftState) : ForwardToLeader :=
  if st.vote.committed then
    match st.membership.effective.membership.nodes.lookup st.vote.node_id with
    | some node => { leader_id := some st.vote.node_id, leader_node := some node }
    | none => ForwardToLeader.empty
  else ForwardToLeader.empty

/-- `Engine::leader_handler`: the leader handler (here: the leader state) is
available exactly when a leader exists and its vote is committed; otherwise
a ForwardToLeader error built from the replica state. -/
def Engine.leader_handler (e : Engine) : Except ForwardToLeader Leader :=
  match e.leader with
  | none => Except.error e.state.forward_to_leader
  | some l =>
    if l.vote.committed then Except.ok l
    else Except.error e.state.forward_to_leader

/-! ### Order lemmas -/

theorem optNatLeB_refl (a : Option Nat) : optNatLeB a a = true := by
  cases a <;> simp [optNatLeB]

theorem optNatLeB_trans {a b c : Option Nat} (h1 : optNatLeB a b = true)
    (h2 : optNatLeB b c = true) : optNatLeB a c = true := by
  cases a <;> cases b <;> cases c <;> simp_all [optNatLeB] <;> omega

theorem optNatLeB_of_not {a b : Option Nat} (h : optNatLeB a b = false) :
    optNatLeB b a = true := by
  cases a <;> cases b <;> simp_all [optNatLeB] <;> omega

theorem optLogIdLeB_refl (a : Option LogId) : optLogIdLeB a a = true := by
  cases a <;> simp [optLogIdLeB, LogId.leB]

theorem optLogIdLtB_le {a b : Option LogId} (h : optLogIdLtB a b = true) :
    optLogIdLeB a b = true := by
  cases a <;> cases b <;> simp_all [optLogIdLtB, optLogIdLeB, LogId.ltB, LogId.leB] <;> omega

/-! ### C4 — the MembershipState invariant under its mutating operations -/

/-- C4 counterexample state: committed = effective = (term 5, index 3). -/
def msC4 : MembershipState :=
  { committed :=
      { log_id := some { term := 5, index := 3 },
        membership := { configs := [[1]], nodes := [(1, 1)] } },
    effective :=
      { log_id := some { term := 5, index := 3 },
        membership := { configs := [[1]], nodes := [(1, 1)] } } }

/-- C4 counterexample input: a committed membership at (term 2, index 10) —
a greater index but a smaller term. -/
def cC4 : EffectiveMembership :=
  { log_id := some { term := 2, index := 10 },
    membership := { configs := [[1], [2]], nodes := [(1, 1), (2, 2)] } }

/-- C4 (counterexample): `update_committed` does not preserve the full
invariant `committed.log_id ≤ effective.log_id` in (term, index) order: from
the valid state with committed = effective = (5,3), the input (2,10) makes
the effective config (2,10) (greater index) while the committed one stays
(5,3), and (5,3) ≤ (2,10) fails in term order. -/
theorem c4_counterexample :
    msC4.invB = true ∧ ((msC4.update_committed cC4).1).invB = false := by decide

/-- C4 (amended): `commit`, `append` and `truncate` preserve the invariant
`committed.log_id ≤ effective.log_id` (in (term, index) order and by index),
under the `debug_assert!` preconditions of `append` and `truncate`;
`update_committed` preserves the index comparison, but not the (term, index)
comparison (see the counterexample). -/
theorem c4_inv_preservation :
    (∀ (ms : MembershipState) (c : Option LogId),
      ms.invB = true → (ms.commit c).invB = true) ∧
    (∀ (ms : MembershipState) (m : EffectiveMembership),
      ms.invB = true →
      optLogIdLtB ms.effective.log_id m.log_id = true →
      optNatLtB (optIndex ms.effective.log_id) (optIndex m.log_id) = true →
      (ms.append m).invB = true) ∧
    (∀ (ms : MembershipState) (since : Nat),
      ms.invB = true →
      optNextIndex ms.committed.log_id ≤ since →
      ((ms.truncate since).1).invB = true) ∧
    (∀ (ms : MembershipState) (c : EffectiveMembership),
      ms.invB = true →
      optNatLeB (optIndex ((ms.update_committed c).1).committed.log_id)
        (optIndex ((ms.update_committed c).1).effective.log_id) = true) := by
  refine ⟨?_, ?_, ?_, ?_⟩
  · intro ms c h
    unfold MembershipState.commit
    split
    · simp [MembershipState.invB, optLogIdLeB_refl, optNatLeB_refl]
    · exact h
  · intro ms m h hlt hidx
    have hle := optLogIdLtB_le hlt
    have hidxle : optNatLeB (optIndex ms.effective.log_id) (optIndex m.log_id) = true := by
      cases hm : optIndex ms.effective.log_id <;> cases hm2 : optIndex m.log_id <;>
        simp_all [optNatLtB, optNatLeB] <;> omega
    simp [MembershipState.append, MembershipState.invB, hle, hidxle]
  · intro ms since h _
    unfold MembershipState.truncate
    split
    · simp [MembershipState.invB, optLogIdLeB_refl, optNatLeB_refl]
    · exact h
  · intro ms c h
    have hinv : optNatLeB (optIndex ms.committed.log_id) (optIndex ms.effective.log_id) = true := by
      simp [MembershipState.invB] at h
      exact h.2
    simp only [MembershipState.update_committed]
    by_cases h1 : optNatLeB (optIndex ms.effective.log_id) (optIndex c.log_id) = true
    · rw [if_pos h1]
      by_cases h2 : optLogIdLtB ms.committed.log_id c.log_id = true
      · rw [if_pos h2]
        exact optNatLeB_refl _
      · rw [if_neg h2]
        exact optNatLeB_trans hinv h1
    · rw [if_neg h1]
      rw [Bool.not_eq_true] at h1
      by_cases h2 : optLogIdLtB ms.committed.log_id c.log_id = true
      · rw [if_pos h2]
        exact optNatLeB_of_not h1
      · rw [if_neg h2]
        exact hinv

/-- C4 (witness): the amended preservation theorem applied at a concrete
state and inputs. -/
theorem c4_inv_preservation_witness :
    (msC4.commit (some { term := 6, index := 4 })).invB = true ∧
    (msC4.append
      { log_id := some { term := 6, index := 4 },
        membership := cC4.membership }).invB = true ∧
    ((msC4.truncate 4).1).invB = true ∧
    optNatLeB (optIndex ((msC4.update_committed cC4).1).committed.log_id)
      (optIndex ((msC4.update_committed cC4).1).effective.log_id) = true :=
  ⟨c4_inv_preservation.1 msC4 _ (by decide),
   c4_inv_preservation.2.1 msC4 _ (by decide) (by decide) (by decide),
   c4_inv_preservation.2.2.1 msC4 4 (by decide) (by decide),
   c4_inv_preservation.2.2.2 msC4 cC4 (by decide)⟩

/-! ### C6 — next_membership error conditions -/

/-- The new voter ids: the changes applied to the last joint voter set. -/
def newVoters (ms : MembershipState) (apply_changes : List Nat → List Nat) : List Nat :=
  apply_changes (ms.effective.membership.configs.getLastD [])

/-- The first new voter id without a node entry in the effective membership. -/
def missingVoter (ms : MembershipState) (apply_changes : List Nat → List Nat) : Option Nat :=
  (newVoters ms apply_changes).find? (fun n => ! ms.effective.membership.containsNode n)

/-- C6 counterexample state: an uncommitted membership change is outstanding
(committed.log_id ≠ effective.log_id). -/
def msC6 : MembershipState :=
  { committed :=
      { log_id := none,
        membership := { configs := [[1]], nodes := [(1, 1)] } },
    effective :=
      { log_id := some { term := 1, index := 1 },
        membership := { configs := [[1]], nodes := [(1, 1)] } } }

/-- C6 (counterexample): with an outstanding uncommitted membership change,
a change request that empties the voter set fails with EmptyMembership, not
InProgress — so "fails with InProgress exactly when committed.log_id differs
from effective.log_id" is false: the earlier checks take priority. -/
theorem c6_counterexample :
    msC6.next_membership (fun _ => []) true =
      Except.error ChangeMembershipError.emptyMembership ∧
    msC6.committed.log_id ≠ msC6.effective.log_id :=
  ⟨rfl, by decide⟩

/-- C6 (amended): the checks run in order.  EmptyMembership when the changes
empty the voter set; else LearnerNotFound for the first resulting voter id
with no node entry; InProgress exactly when both earlier checks pass and
committed.log_id ≠ effective.log_id; Ok exactly when no condition holds. -/
theorem c6_next_membership (ms : MembershipState)
    (apply_changes : List Nat → List Nat) (rtl : Bool) :
    ((newVoters ms apply_changes).isEmpty = true →
      ms.next_membership apply_changes rtl =
        Except.error ChangeMembershipError.emptyMembership) ∧
    (∀ n, (newVoters ms apply_changes).isEmpty = false →
      missingVoter ms apply_changes = some n →
      ms.next_membership apply_changes rtl =
        Except.error (ChangeMembershipError.learnerNotFound n)) ∧
    ((ms.next_membership apply_changes rtl =
        Except.error
          (ChangeMembershipError.inProgress ms.committed.log_id ms.effective.log_id)) ↔
      ((newVoters ms apply_changes).isEmpty = false ∧
       missingVoter ms apply_changes = none ∧
       ms.committed.log_id ≠ ms.effective.log_id)) ∧
    ((∃ m, ms.next_membership apply_changes rtl = Except.ok m) ↔
      ((newVoters ms apply_changes).isEmpty = false ∧
       missingVoter ms apply_changes = none ∧
       ms.committed.log_id = ms.effective.log_id)) := by
  simp only [MembershipState.next_membership, newVoters, missingVoter]
  refine ⟨?_, ?_, ?_, ?_⟩
  · intro h
    rw [if_pos h]
  · intro n hne hfind
    rw [if_neg (by rw [hne]; exact Bool.false_ne_true), hfind]
  · constructor
    · intro h
      by_cases hne : (apply_changes (ms.effective.membership.configs.getLastD [])).isEmpty = true
      · rw [if_pos hne] at h
        simp at h
      · rw [if_neg hne] at h
        rw [Bool.not_eq_true] at hne
        cases hfind : (apply_changes (ms.effective.membership.configs.getLastD [])).find?
            (fun n => ! ms.effective.membership.containsNode n) with
        | some n => rw [hfind] at h; simp at h
        | none =>
          rw [hfind] at h
          by_cases heq : ms.committed.log_id == ms.effective.log_id
          · rw [if_pos heq] at h; simp at h
          · refine ⟨hne, rfl, ?_⟩
            simpa using heq
    · rintro ⟨hne, hfind, hneq⟩
      rw [if_neg (by rw [hne]; exact Bool.false_ne_true), hfind, if_neg (by simpa using hneq)]
  · constructor
    · intro ⟨m, h⟩
      by_cases hne : (apply_changes (ms.effective.membership.configs.getLastD [])).isEmpty = true
      · rw [if_pos hne] at h
        simp at h
      · rw [if_neg hne] at h
        rw [Bool.not_eq_true] at hne
        cases hfind : (apply_changes (ms.effective.membership.configs.getLastD [])).find?
            (fun n => ! ms.effective.membership.containsNode n) with
        | some n => rw [hfind] at h; simp at h
        | none =>
          rw [hfind] at h
          by_cases heq : ms.committed.log_id == ms.effective.log_id
          · refine ⟨hne, rfl, by simpa using heq⟩
          · rw [if_neg heq] at h; simp at h
    · rintro ⟨hne, hfind, heq⟩
      rw [if_neg (by rw [hne]; exact Bool.false_ne_true), hfind, if_pos (by simpa using heq)]
      exact ⟨_, rfl⟩

/-- C6 (witness): the amended theorem applied at the concrete state, showing
the InProgress case when both earlier checks pass. -/
theorem c6_next_membership_witness :
    msC6.next_membership (fun v => v) true =
      Except.error (ChangeMembershipError.inProgress msC6.committed.log_id
        msC6.effective.log_id) :=
  (c6_next_membership msC6 (fun v => v) true).2.2.1.mpr
    ⟨by decide, by decide, by decide⟩

/-! ### C3 / C7 — handle_vote_req -/

/-- C3: while `state.vote` is committed and `now` is within the leader lease
(with a missing `vote_last_modified` defaulting to a value older than the
lease), `handle_vote_req` rejects the request: it returns the current
(vote, last_log_id) and leaves the entire engine unchanged, for every
request. -/
theorem c3_lease_reject (e : Engine) (now : Int) (req : VoteRequest)
    (hc : e.state.vote.committed = true)
    (hl : now ≤ e.state.vote_last_modified.getD (now - e.leader_lease - 1) + e.leader_lease) :
    e.handle_vote_req now req =
      (e, { vote := e.state.vote, last_log_id := e.state.last_log_id }) := by
  unfold Engine.handle_vote_req
  rw [if_pos (by simp [hc, hl])]

/-- Concrete engine for the vote-request witnesses: committed vote (5,2),
lease 300, vote last modified at instant 0. -/
def engC3 : Engine :=
  { id := 1, leader_lease := 300,
    state :=
      { vote := { term := 5, node_id := 2, committed := true },
        log := [{ term := 1, index := 0 }],
        purged_next := 0, committed := none, purge_upto := none,
        snapshot_last := none,
        membership :=
          { committed :=
              { log_id := some { term := 1, index := 0 },
                membership := { configs := [[1, 2]], nodes := [(1, 1), (2, 2)] } },
            effective :=
              { log_id := some { term := 1, index := 0 },
                membership := { configs := [[1, 2]], nodes := [(1, 1), (2, 2)] } } },
        vote_last_modified := some 0,
        server_state := ServerState.follower },
    seen_greater_log := false,
    last_seen_vote := { term := 5, node_id := 2, committed := true },
    leader := none, candidate := none, output := [] }

/-- C3 (witness): at T+100ms within a 300ms lease, a request with the larger
vote (6,3) and last_log_id (5,10) is rejected with no state change. -/
theorem c3_lease_reject_witness :
    engC3.state.vote.committed = true ∧
    ((100 : Int) ≤ engC3.state.vote_last_modified.getD
      (100 - engC3.leader_lease - 1) + engC3.leader_lease) ∧
    engC3.handle_vote_req 100
        { vote := { term := 6, node_id := 3, committed := false },
          last_log_id := some { term := 5, index := 10 } } =
      (engC3, { vote := engC3.state.vote, last_log_id := engC3.state.last_log_id }) :=
  ⟨by decide, by decide, c3_lease_reject engC3 100 _ (by decide) (by decide)⟩

/-- C7: on every path — lease rejection, rejection by log, and the
update_vote path — handle_vote_req returns exactly the node's
(vote, last_log_id) as they stand after the request was handled. -/
theorem c7_vote_req_returns_current (e : Engine) (now : Int) (req : VoteRequest) :
    (e.handle_vote_req now req).2 =
      { vote := (e.handle_vote_req now req).1.state.vote,
        last_log_id := (e.handle_vote_req now req).1.state.last_log_id } := by
  unfold Engine.handle_vote_req
  by_cases h1 : (e.state.vote.committed &&
      decide (now ≤ e.state.vote_last_modified.getD
        (now - e.leader_lease - 1) + e.leader_lease)) = true
  · simp [h1]
  · rw [Bool.not_eq_true] at h1
    by_cases h2 : optLogIdLeB e.state.last_log_id req.last_log_id = true
    · simp [h1, h2]
    · rw [Bool.not_eq_true] at h2
      simp [h1, h2]

/-! ### C8 — handle_vote_resp and the seen_greater_log flag -/

theorem ussc_seen (e : Engine) :
    e.update_server_state_if_changed.seen_greater_log = e.seen_greater_log := by
  unfold Engine.update_server_state_if_changed
  by_cases h : (e.calc_server_state == e.state.server_state) = true
  · simp [h]
  · rw [Bool.not_eq_true] at h
    simp [h]

theorem ussc_candidate (e : Engine) :
    e.update_server_state_if_changed.candidate = e.candidate := by
  unfold Engine.update_server_state_if_changed
  by_cases h : (e.calc_server_state == e.state.server_state) = true
  · simp [h]
  · rw [Bool.not_eq_true] at h
    simp [h]

theorem update_vote_ok_seen {e : Engine} {now : Int} {v : Vote} {x : Engine}
    (h : e.update_vote now v = Except.ok x) :
    x.seen_greater_log = e.seen_greater_log := by
  unfold Engine.update_vote at h
  by_cases h1 : Vote.ltB v e.state.vote = true
  · rw [if_pos h1] at h
    exact absurd h (by simp)
  · rw [if_neg h1] at h
    by_cases h2 : Vote.ltB e.state.vote v = true
    · rw [if_pos h2] at h
      simp only [Except.ok.injEq] at h
      subst h
      rw [ussc_seen]
    · rw [if_neg h2] at h
      simp only [Except.ok.injEq] at h
      subst h
      rfl

theorem update_vote_ok_candidate_none {e : Engine} {now : Int} {v : Vote} {x : Engine}
    (hc : e.candidate = none) (h : e.update_vote now v = Except.ok x) :
    x.candidate = none := by
  unfold Engine.update_vote at h
  by_cases h1 : Vote.ltB v e.state.vote = true
  · rw [if_pos h1] at h
    exact absurd h (by simp)
  · rw [if_neg h1] at h
    by_cases h2 : Vote.ltB e.state.vote v = true
    · rw [if_pos h2] at h
      simp only [Except.ok.injEq] at h
      subst h
      rw [ussc_candidate]
      simp [hc]
    · rw [if_neg h2] at h
      simp only [Except.ok.injEq] at h
      subst h
      exact hc

theorem update_vote_or_self_seen (e : Engine) (now : Int) (v : Vote) :
    (e.update_vote_or_self now v).seen_greater_log = e.seen_greater_log := by
  unfold Engine.update_vote_or_self
  cases h : e.update_vote now v with
  | ok x => exact update_vote_ok_seen h
  | error _ => rfl

theorem update_vote_or_self_candidate_none {e : Engine} (now : Int) (v : Vote)
    (hc : e.candidate = none) :
    (e.update_vote_or_self now v).candidate = none := by
  unfold Engine.update_vote_or_self
  cases h : e.update_vote now v with
  | ok x => exact update_vote_ok_candidate_none hc h
  | error _ => exact hc

theorem establish_leader_seen (e : Engine) (now : Int) :
    (e.establish_leader now).seen_greater_log = e.seen_greater_log := by
  unfold Engine.establish_leader
  cases hc : e.candidate with
  | none => rfl
  | some cand =>
    dsimp only
    by_cases h1 : Vote.ltB cand.vote e.state.vote = true
    · rw [if_pos h1]
    · rw [if_neg h1]
      exact update_vote_or_self_seen _ now _

theorem establish_leader_candidate_none (e : Engine) (now : Int) :
    (e.establish_leader now).candidate = none := by
  unfold Engine.establish_leader
  cases hc : e.candidate with
  | none => exact hc
  | some cand =>
    dsimp only
    by_cases h1 : Vote.ltB cand.vote e.state.vote = true
    · rw [if_pos h1]
    · rw [if_neg h1]
      exact update_vote_or_self_candidate_none now _ rfl

/-- C8: handle_vote_resp sets seen_greater_log exactly when a candidate
exists, the replied vote differs from the candidate's (a rejection), and the
replied last log id is greater than the local one; a response whose vote
equals the candidate's vote never sets the flag (even with a greater
last_log_id) and is counted as a grant: the target is recorded in the
candidate's granted set, or the candidate was consumed to establish the
leader on quorum. -/
theorem c8_seen_greater_log (e : Engine) (now : Int) (target : Nat)
    (resp : VoteResponse) :
    ((e.handle_vote_resp now target resp).seen_greater_log =
      (e.seen_greater_log ||
        (match e.candidate with
         | none => false
         | some cand =>
           (! (resp.vote == cand.vote)) &&
             optLogIdLtB e.state.last_log_id resp.last_log_id))) ∧
    (∀ cand, e.candidate = some cand → resp.vote = cand.vote →
      ((e.handle_vote_resp now target resp).candidate = none ∨
       (e.handle_vote_resp now target resp).candidate =
         some (cand.grant_by target))) := by
  constructor
  · unfold Engine.handle_vote_resp
    cases hc : e.candidate with
    | none =>
      simp [Engine.update_last_seen, hc]
    | some cand =>
      simp only [Engine.update_last_seen]
      rw [hc]
      dsimp only
      by_cases hv : (resp.vote == cand.vote) = true
      · rw [if_pos hv, hv]
        by_cases hq : (cand.grant_by target).quorum_granted = true
        · rw [if_pos hq]
          rw [establish_leader_seen]
          simp
        · rw [if_neg hq]
          simp
      · rw [if_neg hv]
        rw [Bool.not_eq_true] at hv
        rw [hv]
        by_cases hl : optLogIdLtB e.state.last_log_id resp.last_log_id = true
        · rw [if_pos hl, hl]
          simp
        · rw [if_neg hl]
          rw [Bool.not_eq_true] at hl
          rw [hl]
          simp
  · intro cand hc hv
    unfold Engine.handle_vote_resp
    simp only [Engine.update_last_seen]
    rw [hc]
    dsimp only
    rw [if_pos (by simp [hv])]
    by_cases hq : (cand.grant_by target).quorum_granted = true
    · rw [if_pos hq]
      exact Or.inl (establish_leader_candidate_none _ now)
    · rw [if_neg hq]
      exact Or.inr rfl

/-- Concrete candidate for the C8 witness: vote (1,1), quorum set {1,2,3},
self-grant recorded. -/
def candC8 : Candidate :=
  { vote := { term := 1, node_id := 1, committed := false },
    last_log_id := none, quorum := [[1, 2, 3]], granted := [1] }

/-- Concrete engine for the C8 witness: a candidate exists. -/
def engC8 : Engine :=
  { id := 1, leader_lease := 300,
    state :=
      { vote := { term := 1, node_id := 1, committed := false },
        log := [], purged_next := 0, committed := none, purge_upto := none,
        snapshot_last := none,
        membership :=
          { committed :=
              { log_id := none,
                membership := { configs := [[1, 2, 3]], nodes := [(1, 1), (2, 2), (3, 3)] } },
            effective :=
              { log_id := none,
                membership := { configs := [[1, 2, 3]], nodes := [(1, 1), (2, 2), (3, 3)] } } },
        vote_last_modified := some 0,
        server_state := ServerState.candidate },
    seen_greater_log := false,
    last_seen_vote := { term := 1, node_id := 1, committed := false },
    leader := none, candidate := some candC8, output := [] }

/-- C8 (witness): the grant conjunct of the theorem applied at a concrete
engine whose candidate vote equals the response's vote. -/
theorem c8_seen_greater_log_witness :
    (engC8.handle_vote_resp 0 2
        { vote := { term := 1, node_id := 1, committed := false },
          last_log_id := some { term := 1, index := 9 } }).candidate = none ∨
    (engC8.handle_vote_resp 0 2
        { vote := { term := 1, node_id := 1, committed := false },
          last_log_id := some { term := 1, index := 9 } }).candidate =
      some (candC8.grant_by 2) :=
  (c8_seen_greater_log engC8 0 2 _).2 candC8 rfl rfl

/-! ### C1 — the Respond command of handle_append_entries -/

/-- A fresh, uninitialized engine: node 1, empty log, zero vote. -/
def engFresh : Engine :=
  { id := 1, leader_lease := 300,
    state :=
      { vote := Vote.zero, log := [], purged_next := 0, committed := none,
        purge_upto := none, snapshot_last := none,
        membership :=
          { committed :=
              { log_id := none, membership := { configs := [[1]], nodes := [(1, 1)] } },
            effective :=
              { log_id := none, membership := { configs := [[1]], nodes := [(1, 1)] } } },
        vote_last_modified := none,
        server_state := ServerState.learner },
    seen_greater_log := false, last_seen_vote := Vote.zero,
    leader := none, candidate := none, output := [] }

/-- The C1 run: an accepted append-entries call with a reply channel. -/
def c1run : Engine × Bool :=
  engFresh.handle_append_entries 0 { term := 1, node_id := 2, committed := false }
    none [{ log_id := { term := 1, index := 0 }, membership := none }] true

/-- C1 (counterexample): a concrete accepted append with tx present — the
call succeeds and the emitted Respond command carries `when = none`; no
command of the run carries any wait-condition, refuting the claim that the
Respond is gated on a FlushedLogAt condition for the last appended log id. -/
theorem c1_counterexample :
    c1run.2 = true ∧
    c1run.1.output.getLast? = some (Command.respond none true) ∧
    c1run.1.output.all
      (fun c => match c with
        | Command.respond (some _) _ => false
        | _ => true) = true := by decide

/-- C1 (amended): for every append-entries call with tx present, the last
command the engine emits is a Respond carrying the call's result with no
wait-condition at all (`when = none`), whether or not the entries were
accepted. -/
theorem c1_respond_unconditional (e : Engine) (now : Int) (vote : Vote)
    (prev : Option LogId) (entries : List Entry) :
    ((e.handle_append_entries now vote prev entries true).1).output.getLast? =
      some (Command.respond none
        ((e.handle_append_entries now vote prev entries true).2)) := by
  simp [Engine.handle_append_entries]

/-! ### C2 — initialize -/

/-- C2 (counterexample): on the uninitialized engine, an entry that is not a
membership entry hits the source's `entry.get_membership().expect(..)`: the
process panics instead of returning NotAllowed or NotInMembers. -/
theorem c2_counterexample :
    engFresh.init 0 { log_id := { term := 3, index := 7 }, membership := none } =
      InitResult.panicked := rfl

/-- C2 (amended): initialize succeeds exactly when the log is empty, the vote
is the zero vote, and the entry is a membership entry listing this node as a
voter; an initialized state fails with NotAllowed; an uninitialized state
with a membership entry not listing this node fails with NotInMembers; an
uninitialized state with a non-membership entry panics (aborts the process)
rather than returning an error. -/
theorem c2_init_outcomes (e : Engine) (now : Int) (entry : Entry) :
    ((∃ e2, e.init now entry = InitResult.ok e2) ↔
      (e.state.last_log_id = none ∧ e.state.vote = Vote.zero ∧
       ∃ m, entry.membership = some m ∧ m.is_voter e.id = true)) ∧
    (e.state.is_inited = true →
      e.init now entry = InitResult.errNotAllowed e.state.last_log_id e.state.vote) ∧
    (∀ m, e.state.is_inited = false → entry.membership = some m →
      m.is_voter e.id = false → e.init now entry = InitResult.errNotInMembers e.id) ∧
    (e.state.is_inited = false → entry.membership = none →
      e.init now entry = InitResult.panicked) := by
  have hini : e.state.is_inited = false ↔
      (e.state.last_log_id = none ∧ e.state.vote = Vote.zero) := by
    simp [RaftState.is_inited]
  refine ⟨?_, ?_, ?_, ?_⟩
  · constructor
    · intro ⟨e2, h⟩
      unfold Engine.init at h
      by_cases hi : e.state.is_inited = true
      · rw [if_pos hi] at h
        simp at h
      · rw [if_neg hi] at h
        rw [Bool.not_eq_true] at hi
        refine ⟨(hini.mp hi).1, (hini.mp hi).2, ?_⟩
        cases hm : entry.membership with
        | none =>
          rw [hm] at h
          simp at h
        | some m =>
          rw [hm] at h
          dsimp only at h
          by_cases hv : m.is_voter e.id = true
          · exact ⟨m, rfl, hv⟩
          · rw [Bool.not_eq_true] at hv
            rw [if_pos (by simp [hv])] at h
            simp at h
    · rintro ⟨hlast, hvote, m, hm, hv⟩
      have hf : e.state.is_inited = false := hini.mpr ⟨hlast, hvote⟩
      unfold Engine.init
      rw [if_neg (by simp [hf]), hm]
      dsimp only
      rw [if_neg (by simp [hv])]
      exact ⟨_, rfl⟩
  · intro hi
    unfold Engine.init
    rw [if_pos hi]
  · intro m hi hm hv
    unfold Engine.init
    rw [if_neg (by simp [hi]), hm]
    dsimp only
    rw [if_pos (by simp [hv])]
  · intro hi hm
    unfold Engine.init
    rw [if_neg (by simp [hi]), hm]

/-- C2 (witness): the amended theorem applied at the uninitialized engine
with a membership entry that does not list node 1: NotInMembers. -/
theorem c2_init_outcomes_witness :
    engFresh.init 0
      { log_id := { term := 0, index := 0 },
        membership := some { configs := [[2]], nodes := [(2, 2)] } } =
      InitResult.errNotInMembers engFresh.id :=
  (c2_init_outcomes engFresh 0 _).2.2.1 _ (by decide) rfl (by decide)

/-! ### C5 / C10 — trigger_purge_log -/

/-- Concrete engine for C5: snapshot at (1,5), purge already scheduled up to
(1,5), prefix purged up to index 2, not a leader. -/
def engC5 : Engine :=
  { id := 1, leader_lease := 300,
    state :=
      { vote := Vote.zero,
        log := [{ term := 1, index := 0 }, { term := 1, index := 1 },
          { term := 1, index := 2 }, { term := 1, index := 3 },
          { term := 1, index := 4 }, { term := 1, index := 5 }],
        purged_next := 3,
        committed := some { term := 1, index := 5 },
        purge_upto := some { term := 1, index := 5 },
        snapshot_last := some { term := 1, index := 5 },
        membership :=
          { committed :=
              { log_id := some { term := 1, index := 0 },
                membership := { configs := [[1]], nodes := [(1, 1)] } },
            effective :=
              { log_id := some { term := 1, index := 0 },
                membership := { configs := [[1]], nodes := [(1, 1)] } } },
        vote_last_modified := none,
        server_state := ServerState.follower },
    seen_greater_log := false, last_seen_vote := Vote.zero,
    leader := none, candidate := none, output := [] }

/-- C5 (counterexample): with the snapshot and the scheduled purge_upto both
at index 5, the request index 7 is below nobody's cap after capping
(capped = 5 < purge_upto.next_index = 6), so the claim's cap-first reading
is a no-op — but the source compares the un-capped 7 first, proceeds, and
emits a PurgeLog command. -/
theorem c5_counterexample :
    engC5.trigger_purge_log_capFirst 7 = some engC5 ∧
    (engC5.trigger_purge_log 7).map Engine.output =
      some [Command.purgeLog { term := 1, index := 5 }] := by decide

/-- C5 (amended): trigger_purge_log (when a snapshot exists) first compares
the UN-capped index against the scheduled purge_upto's next index and is a
no-op when the index is below it; otherwise it caps the index at the
snapshot's last index, sets purge_upto to the log id at the capped index and
calls try_purge_log (the source unwraps the log id lookup; `none` models
that panic). -/
theorem c5_trigger_purge (e : Engine) (index : Nat) (snap : LogId)
    (hs : e.state.snapshot_last = some snap) :
    (index < optNextIndex e.state.purge_upto →
      e.trigger_purge_log index = some e) ∧
    (optNextIndex e.state.purge_upto ≤ index →
      e.trigger_purge_log index =
        (match e.state.get_log_id (min index snap.index) with
         | none => none
         | some lid => some ((e.update_purge_upto lid).try_purge_log))) := by
  unfold Engine.trigger_purge_log
  rw [hs]
  dsimp only
  constructor
  · intro h
    rw [if_pos h]
  · intro h
    rw [if_neg (by omega)]
    have hmin : (if snap.index < index then snap.index else index) = min index snap.index := by
      split <;> omega
    rw [hmin]

/-- C5 (witness): the amended theorem applied at the concrete engine: an
index below the scheduled next index is a no-op. -/
theorem c5_trigger_purge_witness :
    engC5.state.snapshot_last = some { term := 1, index := 5 } ∧
    2 < optNextIndex engC5.state.purge_upto ∧
    engC5.trigger_purge_log 2 = some engC5 :=
  ⟨rfl, by decide, (c5_trigger_purge engC5 2 _ rfl).1 (by decide)⟩

/-- C10: when no snapshot exists, trigger_purge_log is a complete no-op for
every index: the engine (its state and its command output included) is
returned unchanged. -/
theorem c10_no_snapshot_noop (e : Engine) (index : Nat)
    (h : e.state.snapshot_last = none) :
    e.trigger_purge_log index = some e := by
  unfold Engine.trigger_purge_log
  rw [h]

/-- C10 (witness): the theorem applied at the fresh engine. -/
theorem c10_no_snapshot_noop_witness :
    engFresh.state.snapshot_last = none ∧
    engFresh.trigger_purge_log 9 = some engFresh :=
  ⟨rfl, c10_no_snapshot_noop engFresh 9 rfl⟩

/-! ### C9 — leader_handler and ForwardToLeader -/

/-- C9: the leader handler is available exactly when a LeaderState exists
whose vote is committed; every rejection carries the ForwardToLeader built
from the replica state, which is empty when the local vote is uncommitted or
the believed leader has no node entry in the effective membership, and
otherwise carries the committed vote's node id and its endpoint. -/
theorem c9_leader_handler (e : Engine) :
    ((∃ l, e.leader_handler = Except.ok l) ↔
      (∃ l, e.leader = some l ∧ l.vote.committed = true)) ∧
    (∀ err, e.leader_handler = Except.error err → err = e.state.forward_to_leader) ∧
    (e.state.vote.committed = false →
      e.state.forward_to_leader = ForwardToLeader.empty) ∧
    (e.state.membership.effective.membership.nodes.lookup e.state.vote.node_id = none →
      e.state.forward_to_leader = ForwardToLeader.empty) ∧
    (∀ node, e.state.vote.committed = true →
      e.state.membership.effective.membership.nodes.lookup e.state.vote.node_id = some node →
      e.state.forward_to_leader =
        { leader_id := some e.state.vote.node_id, leader_node := some node }) := by
  refine ⟨?_, ?_, ?_, ?_, ?_⟩
  · constructor
    · intro ⟨l, h⟩
      unfold Engine.leader_handler at h
      cases hl : e.leader with
      | none =>
        rw [hl] at h
        simp at h
      | some l2 =>
        rw [hl] at h
        dsimp only at h
        by_cases hc : l2.vote.committed = true
        · exact ⟨l2, rfl, hc⟩
        · rw [if_neg hc] at h
          simp at h
    · intro ⟨l, hl, hc⟩
      unfold Engine.leader_handler
      rw [hl]
      dsimp only
      rw [if_pos hc]
      exact ⟨l, rfl⟩
  · intro err h
    unfold Engine.leader_handler at h
    cases hl : e.leader with
    | none =>
      rw [hl] at h
      simp only [Except.error.injEq] at h
      exact h.symm
    | some l2 =>
      rw [hl] at h
      dsimp only at h
      by_cases hc : l2.vote.committed = true
      · rw [if_pos hc] at h
        simp at h
      · rw [if_neg hc] at h
        simp only [Except.error.injEq] at h
        exact h.symm
  · intro hc
    unfold RaftState.forward_to_leader
    rw [hc]
    simp
  · intro hn
    unfold RaftState.forward_to_leader
    by_cases hc : e.state.vote.committed = true
    · rw [if_pos hc, hn]
    · rw [if_neg hc]
  · intro node hc hn
    unfold RaftState.forward_to_leader
    rw [if_pos hc, hn]

/-- Concrete engine for the C9 witness, mirroring
`test_forward_to_leader_has_leader`: committed vote for node 3, endpoints
1↦4, 2↦5, 3↦6. -/
def engC9 : Engine :=
  { id := 1, leader_lease := 300,
    state :=
      { vote := { term := 1, node_id := 3, committed := true },
        log := [], purged_next := 0, committed := none, purge_upto := none,
        snapshot_last := none,
        membership :=
          { committed :=
              { log_id := some { term := 1, index := 1 },
                membership := { configs := [[1, 2]], nodes := [(1, 4), (2, 5), (3, 6)] } },
            effective :=
              { log_id := some { term := 1, index := 1 },
                membership := { configs := [[1, 2]], nodes := [(1, 4), (2, 5), (3, 6)] } } },
        vote_last_modified := none,
        server_state := ServerState.follower },
    seen_greater_log := false,
    last_seen_vote := { term := 1, node_id := 3, committed := true },
    leader := none, candidate := none, output := [] }

/-- C9 (witness): the theorem applied at the concrete engine of
`test_forward_to_leader_has_leader`: the error carries (3, endpoint 6). -/
theorem c9_leader_handler_witness :
    engC9.state.vote.committed = true ∧
    engC9.state.forward_to_leader = { leader_id := some 3, leader_node := some 6 } :=
  ⟨by decide, (c9_leader_handler engC9).2.2.2.2 6 (by decide) (by decide)⟩

end Openraft
